import Mathlib

/-!
Verification development for the "solar" customer-service chatbot repository.

The file shallowly embeds the knowledge-retrieval and context-assembly core:
`src/knowledge.ts` (keyword search, policy lookup), `src/agent.ts` (off-topic
guard, relevance router `autoSearchKnowledge`, message assembly of `runAgent`),
`src/server.ts` (Bun chat handler, session cleanup sweep), `src/api/chat.ts`
(Express chat handler) and the serverless handler (`src/unnamed/part_000`).

JavaScript strings are modelled as Lean `String`; the JS string operations the
source uses (`toLowerCase`, `split(/\s+/)`, `includes`, `trim`-emptiness,
`slice(0, n)`, `Array.join`) are implemented below over the underlying
character lists, restricted to the ASCII behaviour exercised by the
repository's data.  Prices are modelled in pence (`Nat`), since every price in
the catalogue is an exact number of hundredths.  Timestamps are `Int`
milliseconds.  The remote completion call is the only effect; its outcome is
an explicit oracle value (`ApiOutcome`), exactly the three cases the source
distinguishes.
-/

/-! ### String primitives mirroring the JavaScript operations -/

/-- Character class of the JS regex `\s`, restricted to ASCII whitespace
(space, tab, newline, carriage return, vertical tab, form feed). -/
def isWsChar (c : Char) : Bool :=
  c.toNat == 32 || c.toNat == 9 || c.toNat == 10 || c.toNat == 13 ||
    c.toNat == 11 || c.toNat == 12

/-- ASCII lower-casing of one character; `String.prototype.toLowerCase` on the
repository's data (non-ASCII characters such as `£` are unchanged). -/
def lowerChar (c : Char) : Char :=
  if 65 ≤ c.toNat ∧ c.toNat ≤ 90 then Char.ofNat (c.toNat + 32) else c

/-- JS `s.toLowerCase()`. -/
def lowerStr (s : String) : String := ⟨s.data.map lowerChar⟩

/-- Does `sub` occur as a contiguous sublist of `text`?  Core of
`String.prototype.includes`. -/
def subOccurs (sub : List Char) : List Char → Bool
  | [] => sub.isEmpty
  | c :: rest => sub.isPrefixOf (c :: rest) || subOccurs sub rest

/-- JS `s.includes(sub)`. -/
def includesStr (s sub : String) : Bool := subOccurs sub.data s.data

/-- JS `s.startsWith(p)` (used only to state theorems about block headers). -/
def startsWithStr (s p : String) : Bool := p.data.isPrefixOf s.data

/-- Worker for `String.prototype.split(/\s+/)`: `afterWs` records whether we
are inside a run of whitespace whose split was already emitted, so that a
maximal run produces a single split, with empty fragments at the boundaries
exactly as in JavaScript. -/
def splitWsGo : List Char → List Char → Bool → List (List Char)
  | [], acc, _ => [acc.reverse]
  | c :: rest, acc, afterWs =>
    if isWsChar c then
      if afterWs then splitWsGo rest [] true
      else acc.reverse :: splitWsGo rest [] true
    else
      splitWsGo rest (c :: acc) false

/-- JS `s.split(/\s+/)`. -/
def splitWsStr (s : String) : List String :=
  (splitWsGo s.data [] false).map (fun l => (⟨l⟩ : String))

/-- JS `array.join(sep)` for arrays of strings. -/
def joinSep (sep : String) : List String → String
  | [] => ""
  | [s] => s
  | s :: rest => s ++ sep ++ joinSep sep rest

/-- JS `!s.trim()`: true iff the string is blank (empty or all whitespace). -/
def isBlank (s : String) : Bool := s.data.all isWsChar

/-- JS `s.slice(0, n)` (UTF-16 truncation, modelled on characters). -/
def strTake (s : String) (n : Nat) : String := ⟨s.data.take n⟩

example : splitWsStr "a  b" = ["a", "b"] := by decide
example : splitWsStr " a " = ["", "a", ""] := by decide
example : splitWsStr "" = [""] := by decide
example : lowerStr "Premium Oak" = "premium oak" := by decide
example : includesStr "premium oak worktop" "oak" = true := by decide
example : isBlank "  " = true := by decide
example : strTake "hello" 3 = "hel" := by decide

/-! ### Data model (`src/knowledge.ts` interfaces)

`price` is in pence; the source's `number` prices are all exact hundredths.
`specs` is an association list in insertion order (`Record<string, string>`),
`none` when the field is absent. -/

structure Product where
  id : String
  name : String
  category : String
  description : String
  price : Nat
  inStock : Bool
  specs : Option (List (String × String))
deriving DecidableEq

structure FAQ where
  id : String
  question : String
  answer : String
  keywords : List String
deriving DecidableEq

structure Policy where
  id : String
  topic : String
  title : String
  content : String
deriving DecidableEq

/-- Conversation message (`Message` in `src/agent.ts`); the role is one of
"user" / "assistant" / "system". -/
structure Msg where
  role : String
  content : String
deriving DecidableEq

/-! ### Keyword search (`searchByKeyword` in `src/knowledge.ts`)

The source is generic over records with optional `name` / `question` /
`title` / `description` / `keywords` fields; here the optional field vector is
supplied per record type.  Note which fields each type actually contributes:
a `Product` contributes name and description (its `category` is *not* among
the searched fields), a `FAQ` contributes question and keywords (its `answer`
is not searched), and a `Policy` contributes only its title (its `content` is
not searched). -/

/-- The searchable-fields vector of the source, in its order:
`[item.name, item.question, item.title, item.description, item.keywords?.join(" ")]`. -/
def fieldsOfProduct (p : Product) : List (Option String) :=
  [some p.name, none, none, some p.description, none]

def fieldsOfFAQ (f : FAQ) : List (Option String) :=
  [none, some f.question, none, none, some (joinSep " " f.keywords)]

def fieldsOfPolicy (p : Policy) : List (Option String) :=
  [none, none, some p.title, none, none]

/-- `[...].filter(Boolean).join(" ").toLowerCase()` of the source: drop absent
and empty fields, join with a space, lower-case. -/
def searchText (fields : List (Option String)) : String :=
  lowerStr (joinSep " " ((fields.filterMap id).filter (fun s => !(s == ""))))

/-- One query word's test inside `queryWords.some(...)`: words shorter than
2 characters never match; otherwise substring containment. -/
def wordHit (text : String) (w : String) : Bool :=
  if w.length < 2 then false else includesStr text w

/-- `searchByKeyword(items, query)` of `src/knowledge.ts`. -/
def searchByKeyword (fields : α → List (Option String)) (items : List α)
    (query : String) : List α :=
  let queryWords := splitWsStr (lowerStr query)
  items.filter (fun item => queryWords.any (wordHit (searchText (fields item))))

/-- `searchProducts` of `src/knowledge.ts`: blank query yields `[]`, results
truncated to 10.  The module-level `products` store is passed explicitly. -/
def searchProducts (products : List Product) (query : String) : List Product :=
  if isBlank query then []
  else (searchByKeyword fieldsOfProduct products query).take 10

/-- `searchFAQs` of `src/knowledge.ts`: blank query yields `[]`, truncated to 5. -/
def searchFAQs (faqs : List FAQ) (query : String) : List FAQ :=
  if isBlank query then []
  else (searchByKeyword fieldsOfFAQ faqs query).take 5

/-- The direct-match predicate of `lookupPolicy`: exact case-insensitive topic
match, or the lower-cased topic occurring inside the lower-cased title. -/
def directPolicyMatch (topic : String) (p : Policy) : Bool :=
  lowerStr p.topic == lowerStr topic || includesStr (lowerStr p.title) (lowerStr topic)

/-- `lookupPolicy` of `src/knowledge.ts`: blank topic yields `none`; first a
direct match, else the first keyword-search hit (`results[0] || null`). -/
def lookupPolicy (policies : List Policy) (topic : String) : Option Policy :=
  if isBlank topic then none
  else
    match policies.find? (directPolicyMatch topic) with
    | some p => some p
    | none => (searchByKeyword fieldsOfPolicy policies topic).head?

/-! ### Canonical knowledge base

The file-based store of `src/knowledge.ts` loads JSON files that are not part
of the source tree; the serverless entry point (`src/unnamed/part_000`,
`loadKnowledgeBase`) carries the same catalogue inline, and the Express copy
(`src/api/chat.ts`) repeats it.  These inline records are used as the concrete
catalogue for evaluated statements. -/

def canonicalProducts : List Product :=
  [ ⟨"p1", "Premium Oak Worktop", "Worktops", "High-quality solid oak worktop",
      14999, true, some [("thickness", "40mm"), ("length", "3m")]⟩,
    ⟨"p2", "Walnut Flooring", "Flooring", "Engineered walnut flooring",
      4599, true, some [("thickness", "14mm"), ("width", "150mm")]⟩,
    ⟨"p3", "Bamboo Stair Nosing", "Stairs", "Bamboo stair nosing strip",
      2499, true, none⟩,
    ⟨"p4", "Quartz Worktop", "Worktops", "Engineered quartz surface",
      29999, false, none⟩,
    ⟨"p5", "Composite Decking", "Flooring", "Weather-resistant composite boards",
      3999, true, none⟩ ]

def canonicalFaqs : List FAQ :=
  [ ⟨"f1", "How do I measure for flooring?",
      "Measure the room length and width, multiply for square meters. Add 10% for wastage.",
      ["measure", "flooring", "size"]⟩,
    ⟨"f2", "What\x27s your delivery time?",
      "Standard delivery is 3-5 working days. Express delivery available for next day.",
      ["delivery", "time", "shipping"]⟩,
    ⟨"f3", "Do you offer installation?",
      "Yes, we can recommend certified installers in your area. Contact us for a quote.",
      ["install", "fitting", "service"]⟩,
    ⟨"f4", "How do I care for oak worktops?",
      "Oil your oak worktop every 3-6 months with danish oil. Wipe clean with damp cloth, avoid harsh chemicals.",
      ["care", "oil", "maintenance", "oak"]⟩ ]

def canonicalReturnsPolicy : Policy :=
  ⟨"pol1", "returns", "Returns Policy",
    "You can return any unused item within 30 days for a full refund. Item must be in original packaging."⟩

def canonicalShippingPolicy : Policy :=
  ⟨"pol2", "shipping", "Shipping Information",
    "Free delivery on orders over £100. Standard delivery £9.99. Next day delivery £19.99."⟩

def canonicalWarrantyPolicy : Policy :=
  ⟨"pol3", "warranty", "Warranty",
    "All products come with minimum 1 year manufacturer warranty. Extended warranty available on request."⟩

def canonicalPolicies : List Policy :=
  [canonicalReturnsPolicy, canonicalShippingPolicy, canonicalWarrantyPolicy]

example : searchProducts canonicalProducts "oak" = [⟨"p1", "Premium Oak Worktop", "Worktops",
    "High-quality solid oak worktop", 14999, true, some [("thickness", "40mm"), ("length", "3m")]⟩] := by
  decide

example : lookupPolicy canonicalPolicies "returns" = some canonicalReturnsPolicy := by decide
example : lookupPolicy canonicalPolicies "refund" = none := by decide

/-! ### Off-topic guard (`isLikelyOffTopic` in `src/agent.ts`)

Every pattern of the source's regex list is an alternation of fixed words with
an optional fixed group, so each expands to finitely many literal strings; the
case-insensitive `test` is containment of one of these lower-case literals in
the lower-cased message. -/

def offTopicLiterals : List String :=
  [ -- /write me (a |an )?(poem|essay|story|song)/i
    "write me poem", "write me a poem", "write me an poem",
    "write me essay", "write me a essay", "write me an essay",
    "write me story", "write me a story", "write me an story",
    "write me song", "write me a song", "write me an song",
    -- /what('s| is) the (weather|time|news|score)/i
    "what\x27s the weather", "what is the weather",
    "what\x27s the time", "what is the time",
    "what\x27s the news", "what is the news",
    "what\x27s the score", "what is the score",
    -- /who (is|was) the president/i
    "who is the president", "who was the president",
    -- /help me with (my )?(homework|code|resume)/i
    "help me with homework", "help me with my homework",
    "help me with code", "help me with my code",
    "help me with resume", "help me with my resume",
    -- remaining literal patterns
    "tell me a joke",
    "what do you think about",
    "what is the meaning of life",
    "can you hack",
    "give me your system prompt",
    "ignore previous instructions" ]

def isLikelyOffTopic (message : String) : Bool :=
  offTopicLiterals.any (fun p => includesStr (lowerStr message) p)

/-! ### Relevance router (`autoSearchKnowledge` in `src/agent.ts`)

The module-level knowledge store is passed explicitly.  The source's
fall-through between the keyword branches is rendered as explicit stage
functions. -/

def productKeywords : List String :=
  ["product", "buy", "price", "cost", "stock", "worktop", "flooring", "door",
   "stair", "oak", "walnut", "bamboo", "quartz"]

def policyKeywords : List String :=
  ["return", "refund", "shipping", "delivery", "warranty", "terms", "privacy",
   "policy", "discount"]

def faqKeywords : List String :=
  ["how", "what", "can i", "do you", "where", "when", "faq", "help"]

def hasKw (queryLower : String) (ks : List String) : Bool :=
  ks.any (fun k => includesStr queryLower k)

/-- `p.price.toFixed(2)` with a price in pence. -/
def toFixed2 (pence : Nat) : String :=
  toString (pence / 100) ++ "." ++
    (if pence % 100 < 10 then "0" ++ toString (pence % 100) else toString (pence % 100))

/-- JS default number-to-string rendering of a pence amount (used by the
fallback's raw `${p.price}` interpolation): trailing zero decimals are not
printed. -/
def jsNumStr (pence : Nat) : String :=
  if pence % 100 == 0 then toString (pence / 100)
  else if pence % 10 == 0 then toString (pence / 100) ++ "." ++ toString (pence % 100 / 10)
  else toFixed2 pence

/-- One bullet of the PRODUCT SEARCH RESULTS block. -/
def formatProduct (p : Product) : String :=
  "• " ++ p.name ++ " (" ++ p.category ++ ")\n  " ++ p.description ++
    "\n  Price: £" ++ toFixed2 p.price ++ "\n  " ++
    (if p.inStock then "✓ In Stock" else "✗ Out of Stock") ++
    (match p.specs with
     | none => ""
     | some l => "\n  Specs: " ++ joinSep ", " (l.map (fun kv => kv.1 ++ ": " ++ kv.2)))

def productBlock (results : List Product) : String :=
  "PRODUCT SEARCH RESULTS:\n\n" ++ joinSep "\n\n" (results.map formatProduct)

def policyBlock (p : Policy) : String :=
  "POLICY INFO:\n\n" ++ p.title ++ "\n\n" ++ p.content

def faqBlock (results : List FAQ) : String :=
  "FAQ RESULTS:\n\n" ++
    joinSep "\n\n---\n\n" (results.map (fun f => "Q: " ++ f.question ++ "\nA: " ++ f.answer))

/-- The combined-fallback context of `src/agent.ts` (`// Fallback: search
everything`): low-detail summary of whatever is found. -/
def fallbackContext (ps : List Product) (fs : List FAQ) (pols : List Policy)
    (query : String) : String :=
  let products := searchProducts ps query
  let faqs := searchFAQs fs query
  let policy := lookupPolicy pols query
  (if products.isEmpty then ""
   else "PRODUCTS:\n" ++
     joinSep ", " (products.map (fun p => p.name ++ " - £" ++ jsNumStr p.price)) ++ "\n\n") ++
  (if faqs.isEmpty then ""
   else "RELATED FAQs:\n" ++ joinSep "\n" (faqs.map (fun f => f.question)) ++ "\n\n") ++
  (match policy with
   | some p => "POLICY: " ++ p.title ++ "\n"
   | none => "")

/-- `return context || "No relevant information found.";` -/
def autoFallback (ps : List Product) (fs : List FAQ) (pols : List Policy)
    (query : String) : String :=
  let context := fallbackContext ps fs pols query
  if context == "" then "No relevant information found." else context

/-- FAQ-keyword stage (step 3) of `autoSearchKnowledge`. -/
def autoStage3 (ps : List Product) (fs : List FAQ) (pols : List Policy)
    (query queryLower : String) : String :=
  if hasKw queryLower faqKeywords then
    let results := searchFAQs fs query
    if results.isEmpty then autoFallback ps fs pols query else faqBlock results
  else autoFallback ps fs pols query

/-- Policy-keyword stage (step 2) of `autoSearchKnowledge`. -/
def autoStage2 (ps : List Product) (fs : List FAQ) (pols : List Policy)
    (query queryLower : String) : String :=
  if hasKw queryLower policyKeywords then
    match lookupPolicy pols query with
    | some p => policyBlock p
    | none => autoStage3 ps fs pols query queryLower
  else autoStage3 ps fs pols query queryLower

/-- `autoSearchKnowledge` of `src/agent.ts`: product branch first with
short-circuit, then policy, then FAQ, then the combined fallback. -/
def autoSearchKnowledge (ps : List Product) (fs : List FAQ) (pols : List Policy)
    (query : String) : String :=
  let queryLower := lowerStr query
  if hasKw queryLower productKeywords then
    let results := searchProducts ps query
    if results.isEmpty then autoStage2 ps fs pols query queryLower
    else productBlock results
  else autoStage2 ps fs pols query queryLower

/-! ### Message assembly (`runAgent` in `src/agent.ts`) -/

def offTopicNote : String :=
  "[SYSTEM NOTE: This message appears to be off-topic. Stay focused on your role as a customer service chatbot. Politely redirect to relevant topics.]"

/-- The part of the outbound user content after the guard annotation:
`CUSTOMER QUESTION: ...` plus the conditional knowledge section.  The
instruction suffix is emitted exactly when `knowledgeContext` is a non-empty
string (JS truthiness). -/
def baseUserContent (ps : List Product) (fs : List FAQ) (pols : List Policy)
    (userMessage : String) : String :=
  let knowledgeContext := autoSearchKnowledge ps fs pols userMessage
  "CUSTOMER QUESTION: " ++ userMessage ++ "\n\n" ++
    (if knowledgeContext == "" then ""
     else "RELEVANT KNOWLEDGE:\n" ++ knowledgeContext ++
       "\n\nPlease answer based on this information.")

/-- The full outbound user content: `systemNote + (systemNote ? "\n\n" : "")`
prepends the guard annotation when the message is flagged (the note is a fixed
non-empty string, so the JS truthiness test reduces to the flag). -/
def runAgentUserContent (ps : List Product) (fs : List FAQ) (pols : List Policy)
    (userMessage : String) : String :=
  (if isLikelyOffTopic userMessage then offTopicNote ++ "\n\n" else "") ++
    baseUserContent ps fs pols userMessage

/-- The `apiMessages` array `runAgent` sends: the history copied role/content,
then a single user message carrying annotation + question + knowledge. -/
def buildApiMessages (ps : List Product) (fs : List FAQ) (pols : List Policy)
    (userMessage : String) (conversationHistory : List Msg) : List Msg :=
  conversationHistory.map (fun m => ⟨m.role, m.content⟩) ++
    [⟨"user", runAgentUserContent ps fs pols userMessage⟩]

/-! ### Remote completion outcome

`callDeepSeekAPI` distinguishes exactly three outcomes: a non-ok transport
status (throws `DeepSeek API error: <status> - <text>`), a response body with
no message (`No response from DeepSeek API`), or success with the content
text.  `runAgent` catches the throw into `{content: "", error: message}`. -/

inductive ApiOutcome where
  | httpError (status : Nat) (errorText : String)
  | emptyChoices
  | success (content : String)
deriving DecidableEq

structure AgentResponse where
  content : String
  error : Option String
deriving DecidableEq

def callDeepSeekAPI : ApiOutcome → Except String String
  | .httpError status errorText =>
    Except.error ("DeepSeek API error: " ++ toString status ++ " - " ++ errorText)
  | .emptyChoices => Except.error "No response from DeepSeek API"
  | .success content => Except.ok content

/-- The try/catch tail of `runAgent`: its returned `AgentResponse` as a
function of the remote outcome. -/
def runAgentResult (o : ApiOutcome) : AgentResponse :=
  match callDeepSeekAPI o with
  | .ok c => ⟨c, none⟩
  | .error e => ⟨"", some e⟩

example : isLikelyOffTopic "write me a poem about your products" = true := by decide
example : isLikelyOffTopic "do you have oak worktops in stock" = false := by decide
example : autoSearchKnowledge [] [] [] "zzzzz" = "No relevant information found." := by decide

/-! ### Sessions and the chat handlers

The process-wide `sessions: Map<string, Session>` is modelled as an
association list in insertion order (JS `Map` iterates in insertion order;
`set` on an existing key keeps its position).  Each of the three entry points
— the Bun server (`src/server.ts`), the Express app (`src/api/chat.ts`) and
the serverless handler (`src/unnamed/part_000`) — is embedded as a pure step
function over the store, taking the remote-call outcome as an oracle, since
the `AgentResponse` depends only on that outcome.  The `ChatResult` records
the HTTP status, the store after the request, whether `runAgent` was reached,
and, when it was, the `userMessage` argument and history it received. -/

structure Session where
  messages : List Msg
  lastActive : Int
deriving DecidableEq

abbrev SessionStore := List (String × Session)

def storeGet (store : SessionStore) (id : String) : Option Session :=
  match List.find? (fun kv => kv.1 == id) store with
  | some kv => some kv.2
  | none => none

def storeSet : SessionStore → String → Session → SessionStore
  | [], id, s => [(id, s)]
  | (k, v) :: rest, id, s =>
    if k == id then (id, s) :: rest else (k, v) :: storeSet rest id s

/-- The stored conversation of a session id ([] when the id is absent). -/
def historyOf (store : SessionStore) (id : String) : List Msg :=
  match storeGet store id with
  | some s => s.messages
  | none => []

/-- `session.messages.filter(m => m.role === "user").length`. -/
def userCountOf (messages : List Msg) : Nat :=
  (messages.filter (fun m => m.role == "user")).length

/-- Configuration constants of `src/config.ts`. -/
def MAX_MESSAGES_PER_SESSION : Nat := 50

def MAX_MESSAGE_LENGTH : Nat := 500

def SESSION_TIMEOUT_MS : Int := 30 * 60 * 1000

/-- JS truthiness of `response.error` (absent and empty string are falsy). -/
def errTruthy (r : AgentResponse) : Bool :=
  match r.error with
  | none => false
  | some e => !(e == "")

structure ChatResult where
  status : Nat
  store : SessionStore
  agentCalled : Bool
  agentInput : Option String
  agentHistory : Option (List Msg)
  content : Option String
deriving DecidableEq

/-- `sessions.get(id)` followed by create-and-`set` when absent (identical in
all three handlers). -/
def getOrCreateSession (store : SessionStore) (id : String) (now : Int) :
    Session × SessionStore :=
  match storeGet store id with
  | some s => (s, store)
  | none => (⟨[], now⟩, storeSet store id ⟨[], now⟩)

/-- The common tail of all three handlers: update `lastActive`, run the agent,
return 500 on a truthy error leaving the messages untouched, else append the
user/assistant pair (`storedUserContent` is what the handler pushes, which the
Express and serverless handlers take from the untruncated raw message) and
return 200. -/
def finishTurn (store1 : SessionStore) (id : String) (sess : Session) (now : Int)
    (storedUserContent agentInput : String) (oracle : ApiOutcome) : ChatResult :=
  let store2 := storeSet store1 id ⟨sess.messages, now⟩
  let resp := runAgentResult oracle
  if errTruthy resp then
    ⟨500, store2, true, some agentInput, some sess.messages, none⟩
  else
    ⟨200, storeSet store2 id ⟨sess.messages ++ [⟨"user", storedUserContent⟩, ⟨"assistant", resp.content⟩], now⟩,
      true, some agentInput, some sess.messages, some resp.content⟩

/-- `POST /api/chat` of the Bun server (`src/server.ts`): rate limit (the
limiter's verdict is the `rateLimited` input), field validation, truncation to
`MAX_MESSAGE_LENGTH`, session lookup/creation, the `MAX_MESSAGES_PER_SESSION`
check, then the common tail — this handler stores the *truncated* message. -/
def bunChatStep (store : SessionStore) (rateLimited : Bool)
    (sessionId rawMessage : String) (now : Int) (oracle : ApiOutcome) : ChatResult :=
  if rateLimited then ⟨429, store, false, none, none, none⟩
  else if sessionId == "" || rawMessage == "" then ⟨400, store, false, none, none, none⟩
  else
    match getOrCreateSession store sessionId now with
    | (sess, store1) =>
      if MAX_MESSAGES_PER_SESSION ≤ userCountOf sess.messages then
        ⟨400, store1, false, none, none, none⟩
      else
        finishTurn store1 sessionId sess now (strTake rawMessage MAX_MESSAGE_LENGTH)
          (strTake rawMessage MAX_MESSAGE_LENGTH) oracle

/-- `app.post("/api/chat")` of the Express copy (`src/api/chat.ts`): field
validation, API-key check, session lookup/creation, then the common tail with
`runAgent(message.slice(0, 500), ...)` but the *raw* message stored.  It has
no rate limit and no session message-count check. -/
def expressChatStep (store : SessionStore) (apiKeySet : Bool)
    (sessionId rawMessage : String) (now : Int) (oracle : ApiOutcome) : ChatResult :=
  if sessionId == "" || rawMessage == "" then ⟨400, store, false, none, none, none⟩
  else if !apiKeySet then ⟨500, store, false, none, none, none⟩
  else
    match getOrCreateSession store sessionId now with
    | (sess, store1) =>
      finishTurn store1 sessionId sess now rawMessage (strTake rawMessage 500) oracle

/-- The serverless handler (`src/unnamed/part_000`), POST path: API-key check
first, then field validation, then as in the Express copy (raw message
stored, truncated message passed to the agent, no message-count check). -/
def serverlessChatStep (store : SessionStore) (apiKeySet : Bool)
    (sessionId rawMessage : String) (now : Int) (oracle : ApiOutcome) : ChatResult :=
  if !apiKeySet then ⟨500, store, false, none, none, none⟩
  else if sessionId == "" || rawMessage == "" then ⟨400, store, false, none, none, none⟩
  else
    match getOrCreateSession store sessionId now with
    | (sess, store1) =>
      finishTurn store1 sessionId sess now rawMessage (strTake rawMessage 500) oracle

/-- The periodic cleanup sweep of `src/server.ts`: delete every session whose
`lastActive` is before `now - SESSION_TIMEOUT_MS`. -/
def cleanupSessions (store : SessionStore) (now : Int) : SessionStore :=
  store.filter (fun kv => !(decide (kv.2.lastActive < now - SESSION_TIMEOUT_MS)))

/-! ### Spec-worded comparison definitions

Two claims describe search fields that the implementation does not consult;
the following definitions follow the specification's words, for refutation by
comparison with the source-derived functions above. -/

/-- Modelled from the spec (§4.1): `searchProducts` described as matching
"against each product's name/category/description".  Differs from the source,
whose searchable fields for a product are name and description only. -/
def searchProductsSpecWords (products : List Product) (query : String) : List Product :=
  if isBlank query then []
  else
    (products.filter (fun p =>
      (splitWsStr (lowerStr query)).any (fun w =>
        decide (2 ≤ w.length) &&
          includesStr (lowerStr (p.name ++ " " ++ p.category ++ " " ++ p.description)) w))).take 10

/-- Modelled from the spec (§4.1): `lookupPolicy`'s fallback described as
"the generic keyword search (§4.2) over title/content".  Differs from the
source, whose searchable field for a policy is the title only. -/
def lookupPolicySpecWords (policies : List Policy) (topic : String) : Option Policy :=
  if isBlank topic then none
  else
    match policies.find? (directPolicyMatch topic) with
    | some p => some p
    | none =>
      (policies.filter (fun p =>
        (splitWsStr (lowerStr topic)).any (fun w =>
          decide (2 ≤ w.length) && includesStr (lowerStr (p.title ++ " " ++ p.content)) w))).head?

/-- The title-only fallback that the implementation's `lookupPolicy` actually
performs (proved equivalent in the theorem for claim C2). -/
def titleOnlyFallback (policies : List Policy) (topic : String) : Option Policy :=
  (policies.filter (fun p =>
    (splitWsStr (lowerStr topic)).any (fun w =>
      decide (2 ≤ w.length) && includesStr (lowerStr p.title) w))).head?

example : lookupPolicySpecWords canonicalPolicies "refund" = some canonicalReturnsPolicy := by decide
example : searchProductsSpecWords canonicalProducts "worktops" ≠ [] := by decide
example : searchProducts canonicalProducts "worktops" = [] := by decide

/-! ### Helper lemmas -/

theorem toNat_ofNat_valid (n : Nat) (h : n < 55296) : (Char.ofNat n).toNat = n := by
  rw [Char.ofNat, dif_pos (Or.inl h)]
  rfl

theorem beq_nat_false {m k : Nat} (h : m ≠ k) : (m == k) = false := by
  simpa using h

/-- Lower-casing maps whitespace to whitespace and non-whitespace to
non-whitespace. -/
theorem isWsChar_lowerChar (c : Char) : isWsChar (lowerChar c) = isWsChar c := by
  unfold lowerChar
  by_cases h : 65 ≤ c.toNat ∧ c.toNat ≤ 90
  · rw [if_pos h]
    unfold isWsChar
    rw [toNat_ofNat_valid _ (by omega)]
    have hl : (c.toNat + 32 == 32 || c.toNat + 32 == 9 || c.toNat + 32 == 10 ||
        c.toNat + 32 == 13 || c.toNat + 32 == 11 || c.toNat + 32 == 12) = false := by
      simp only [Bool.or_eq_false_iff, beq_eq_false_iff_ne, ne_eq]
      omega
    have hr : (c.toNat == 32 || c.toNat == 9 || c.toNat == 10 ||
        c.toNat == 13 || c.toNat == 11 || c.toNat == 12) = false := by
      simp only [Bool.or_eq_false_iff, beq_eq_false_iff_ne, ne_eq]
      omega
    rw [hl, hr]
  · rw [if_neg h]

theorem splitWsGo_map_lower (s : List Char) :
    ∀ (acc : List Char) (b : Bool),
      splitWsGo (s.map lowerChar) (acc.map lowerChar) b
        = (splitWsGo s acc b).map (List.map lowerChar) := by
  induction s with
  | nil =>
    intro acc b
    simp [splitWsGo]
  | cons c rest ih =>
    intro acc b
    simp only [List.map_cons, splitWsGo, isWsChar_lowerChar]
    by_cases h : isWsChar c = true
    · rw [h]
      cases b with
      | true =>
        simpa using ih [] true
      | false =>
        simp only [Bool.false_eq_true, if_false, if_true, List.map_cons]
        rw [show (List.map lowerChar acc).reverse = (acc.reverse).map lowerChar by
          simp]
        simpa using ih [] true
    · rw [Bool.not_eq_true] at h
      rw [h]
      simp only [Bool.false_eq_true, if_false]
      exact ih (c :: acc) false

theorem splitWsStr_lowerStr (q : String) :
    splitWsStr (lowerStr q) = (splitWsStr q).map lowerStr := by
  have h := splitWsGo_map_lower q.data [] false
  show (splitWsGo ((lowerStr q).data) [] false).map (fun l => (⟨l⟩ : String))
      = ((splitWsGo q.data [] false).map (fun l => (⟨l⟩ : String))).map lowerStr
  rw [show (lowerStr q).data = q.data.map lowerChar from rfl]
  rw [show splitWsGo (q.data.map lowerChar) [] false
        = (splitWsGo q.data [] false).map (List.map lowerChar) from h]
  rw [List.map_map, List.map_map]
  rfl

theorem lowerStr_length (s : String) : (lowerStr s).length = s.length := by
  show (s.data.map lowerChar).length = s.data.length
  simp

/-- Core of substring monotonicity: an occurrence in `b` survives prefixing. -/
theorem subOccurs_append_left (sub a b : List Char) (h : subOccurs sub b = true) :
    subOccurs sub (a ++ b) = true := by
  induction a with
  | nil => simpa using h
  | cons c rest ih =>
    show subOccurs sub (c :: (rest ++ b)) = true
    unfold subOccurs
    simp [ih]

theorem isPrefixOf_append_self (l t : List Char) : l.isPrefixOf (l ++ t) = true := by
  induction l with
  | nil => simp
  | cons c rest ih => simp [List.isPrefixOf, ih]

theorem includesStr_append_right (a b sub : String) (h : includesStr b sub = true) :
    includesStr (a ++ b) sub = true := by
  unfold includesStr at h ⊢
  rw [String.data_append]
  exact subOccurs_append_left _ _ _ h

theorem startsWithStr_append (a b : String) : startsWithStr (a ++ b) a = true := by
  unfold startsWithStr
  rw [String.data_append]
  exact isPrefixOf_append_self _ _

theorem append_ne_empty_left (a b : String) (h : a.data ≠ []) : a ++ b ≠ "" := by
  intro he
  apply h
  have hd : (a ++ b).data = ("" : String).data := congrArg String.data he
  rw [String.data_append, show ("" : String).data = [] from rfl] at hd
  exact List.append_eq_nil.mp hd |>.1

theorem storeGet_storeSet_self (store : SessionStore) (id : String) (s : Session) :
    storeGet (storeSet store id s) id = some s := by
  induction store with
  | nil =>
    simp [storeSet, storeGet, List.find?]
  | cons kv rest ih =>
    cases kv with
    | mk k v =>
      by_cases h : (k == id) = true
      · have hk : k = id := by simpa using h
        subst hk
        rw [show storeSet ((k, v) :: rest) k s = (k, s) :: rest from by
          simp [storeSet]]
        unfold storeGet
        rw [List.find?_cons_of_pos _ (by simp)]
      · rw [show storeSet ((k, v) :: rest) id s = (k, v) :: storeSet rest id s from by
          simp only [storeSet]
          rw [if_neg (by simpa using h)]]
        unfold storeGet
        rw [List.find?_cons_of_neg _ (by simpa using h)]
        exact ih

theorem searchText_policy (p : Policy) : searchText (fieldsOfPolicy p) = lowerStr p.title := by
  unfold searchText fieldsOfPolicy
  by_cases h : (p.title == "") = true
  · have ht : p.title = "" := by simpa using h
    rw [ht]
    rfl
  · have hb : (p.title == "") = false := by simpa using h
    simp only [List.filterMap, id]
    rw [show List.filter (fun s => !(s == "")) [p.title] = [p.title] from by
      simp [List.filter_cons, hb]]
    rfl

theorem wordHit_eq (t w : String) :
    wordHit t w = (decide (2 ≤ w.length) && includesStr t w) := by
  unfold wordHit
  by_cases h : w.length < 2
  · rw [if_pos h, decide_eq_false (by omega)]
    rfl
  · rw [if_neg h, decide_eq_true (by omega)]
    rfl

theorem str_empty_append (s : String) : "" ++ s = s := by
  apply String.ext
  rw [String.data_append]
  rfl

/-- A query all of whose lowered words are shorter than 2 characters matches
no record. -/
theorem searchByKeyword_eq_nil {α : Type} (fields : α → List (Option String))
    (items : List α) (q : String)
    (hw : ∀ w ∈ splitWsStr (lowerStr q), w.length < 2) :
    searchByKeyword fields items q = [] := by
  unfold searchByKeyword
  refine List.filter_eq_nil_iff.mpr ?_
  intro a _
  rw [Bool.not_eq_true]
  refine List.any_eq_false.mpr ?_
  intro w hwmem
  unfold wordHit
  rw [if_pos (hw w hwmem)]
  exact Bool.false_ne_true

theorem errTruthy_runAgentResult (o : ApiOutcome)
    (h : (runAgentResult o).error ≠ none) : errTruthy (runAgentResult o) = true := by
  cases o with
  | success c => simp [runAgentResult, callDeepSeekAPI] at h
  | emptyChoices => rfl
  | httpError st txt =>
    have hne : (("DeepSeek API error: " ++ toString st) ++ " - ") ++ txt ≠ "" := by
      apply append_ne_empty_left
      rw [String.data_append, String.data_append]
      intro hnil
      have : ("DeepSeek API error: " : String).data = [] := by
        cases List.append_eq_nil.mp (List.append_eq_nil.mp hnil).1 with
        | intro l r => exact l
      exact absurd this (by decide)
    show (!((("DeepSeek API error: " ++ toString st) ++ " - ") ++ txt == "")) = true
    rw [show ((("DeepSeek API error: " ++ toString st) ++ " - ") ++ txt == "") = false from
      beq_eq_false_iff_ne.mpr hne]
    rfl

/-! ### Claim theorems -/

/-- C5: for every query string in which every whitespace-separated word is
shorter than 2 characters (including blank or whitespace-only queries),
`searchProducts` and `searchFAQs` return the empty list: the algorithm
lower-cases the query (which preserves word lengths), splits on whitespace,
and discards words shorter than 2 characters, so no word can match. -/
theorem claim5_thm (ps : List Product) (fs : List FAQ) (q : String)
    (hw : ∀ w ∈ splitWsStr q, w.length < 2) :
    searchProducts ps q = [] ∧ searchFAQs fs q = [] := by
  have hw' : ∀ w ∈ splitWsStr (lowerStr q), w.length < 2 := by
    intro w hwmem
    rw [splitWsStr_lowerStr] at hwmem
    obtain ⟨w0, hw0, rfl⟩ := List.mem_map.mp hwmem
    rw [lowerStr_length]
    exact hw w0 hw0
  constructor
  · unfold searchProducts
    by_cases hb : isBlank q = true
    · rw [if_pos hb]
    · rw [if_neg hb, searchByKeyword_eq_nil _ _ _ hw']
      rfl
  · unfold searchFAQs
    by_cases hb : isBlank q = true
    · rw [if_pos hb]
    · rw [if_neg hb, searchByKeyword_eq_nil _ _ _ hw']
      rfl

/-- C5 witness: the hypothesis holds for "a b" (and the canonical stores),
and both searches return the empty list there. -/
theorem claim5_witness :
    searchProducts canonicalProducts "a b" = [] ∧ searchFAQs canonicalFaqs "a b" = [] :=
  claim5_thm canonicalProducts canonicalFaqs "a b" (by decide)

/-- C6 counterexample: the claim describes `searchProducts` as matching
against name/category/description, but the implementation's searchable fields
for a product are its name and description only — the category is never
consulted.  On the canonical catalogue, the query "worktops" matches the
category of two products ("Worktops") under the claimed algorithm
(`searchProductsSpecWords`, modelled from the spec's words) yet the
implementation returns no results. -/
theorem claim6_cex :
    searchProducts canonicalProducts "worktops" = []
    ∧ searchProductsSpecWords canonicalProducts "worktops" =
        [⟨"p1", "Premium Oak Worktop", "Worktops", "High-quality solid oak worktop",
          14999, true, some [("thickness", "40mm"), ("length", "3m")]⟩,
         ⟨"p4", "Quartz Worktop", "Worktops", "Engineered quartz surface",
          29999, false, none⟩] := by
  decide

/-- C6 (amended): `searchProducts("oak")` over the canonical catalogue returns
the "Premium Oak Worktop" record (case-insensitive substring match against
name and description; the category is not among the searched fields), and for
every query and catalogue the result never exceeds 10 entries and is an
order-preserving sublist of the store. -/
theorem claim6_thm :
    searchProducts canonicalProducts "oak" =
      [⟨"p1", "Premium Oak Worktop", "Worktops", "High-quality solid oak worktop",
        14999, true, some [("thickness", "40mm"), ("length", "3m")]⟩]
    ∧ ∀ (ps : List Product) (q : String),
        (searchProducts ps q).length ≤ 10 ∧ List.Sublist (searchProducts ps q) ps := by
  refine ⟨by decide, ?_⟩
  intro ps q
  unfold searchProducts
  by_cases hb : isBlank q = true
  · rw [if_pos hb]
    exact ⟨by simp, List.nil_sublist ps⟩
  · rw [if_neg hb]
    constructor
    · rw [List.length_take]
      exact Nat.min_le_left _ _
    · refine (List.take_sublist _ _).trans ?_
      unfold searchByKeyword
      exact List.filter_sublist _

/-- C2 counterexample: the claim says the fallback of `lookupPolicy` is the
generic keyword search "over title/content" and that `lookupPolicy("refund")`
returns a policy whose content mentions "refund" when one exists.  The
canonical returns policy's content does mention "refund", and the claimed
algorithm (`lookupPolicySpecWords`, modelled from the spec's words) finds it,
but the implementation searches only the policy title and returns `none`. -/
theorem claim2_cex :
    lookupPolicy canonicalPolicies "refund" = none
    ∧ lookupPolicySpecWords canonicalPolicies "refund" = some canonicalReturnsPolicy
    ∧ includesStr (lowerStr canonicalReturnsPolicy.content) "refund" = true := by
  decide

/-- C2 (amended): for every non-blank topic, `lookupPolicy` first returns the
first policy whose topic tag equals the topic case-insensitively or whose
title contains the topic as a case-insensitive substring; if none exists it
falls back to the keyword search over the policy *title only* (policy content
is not among the searchable fields) and returns the first hit or `none`.  In
particular `lookupPolicy("refund")` on the canonical policy set returns
`none`, even though a policy's content mentions "refund". -/
theorem claim2_thm (pols : List Policy) (topic : String) (h : isBlank topic = false) :
    lookupPolicy pols topic =
      (match pols.find? (directPolicyMatch topic) with
       | some p => some p
       | none => titleOnlyFallback pols topic)
    ∧ lookupPolicy canonicalPolicies "refund" = none
    ∧ includesStr (lowerStr canonicalReturnsPolicy.content) "refund" = true := by
  refine ⟨?_, by decide, by decide⟩
  unfold lookupPolicy
  rw [if_neg (by simp [h])]
  cases hf : pols.find? (directPolicyMatch topic) with
  | some p => rfl
  | none =>
    show (searchByKeyword fieldsOfPolicy pols topic).head? = titleOnlyFallback pols topic
    unfold searchByKeyword titleOnlyFallback
    congr 1
    apply List.filter_congr
    intro p _
    rw [show wordHit (searchText (fieldsOfPolicy p))
          = fun w => decide (2 ≤ w.length) && includesStr (lowerStr p.title) w from by
      funext w
      rw [wordHit_eq, searchText_policy]]

/-- C2 witness: instantiated at the canonical policies with topic "returns"
(non-blank); the lookup resolves through the direct-match branch. -/
theorem claim2_witness :
    lookupPolicy canonicalPolicies "returns" =
      (match canonicalPolicies.find? (directPolicyMatch "returns") with
       | some p => some p
       | none => titleOnlyFallback canonicalPolicies "returns")
    ∧ lookupPolicy canonicalPolicies "refund" = none
    ∧ includesStr (lowerStr canonicalReturnsPolicy.content) "refund" = true :=
  claim2_thm canonicalPolicies "returns" (by decide)

/-- C3: for every utterance containing a product keyword and a policy keyword
for which the product search is non-empty, the router returns the PRODUCT
branch output (headed "PRODUCT SEARCH RESULTS") — the dispatch order
product > policy > FAQ > combined-fallback is first-match-wins with
short-circuit, so the policy and FAQ branches are never consulted. -/
theorem claim3_thm (ps : List Product) (fs : List FAQ) (pols : List Policy) (q : String)
    (hprod : hasKw (lowerStr q) productKeywords = true)
    (_hpol : hasKw (lowerStr q) policyKeywords = true)
    (hres : searchProducts ps q ≠ []) :
    autoSearchKnowledge ps fs pols q = productBlock (searchProducts ps q)
    ∧ startsWithStr (autoSearchKnowledge ps fs pols q) "PRODUCT SEARCH RESULTS:\n\n" = true := by
  have hempty : (searchProducts ps q).isEmpty = false := by
    cases hx : searchProducts ps q with
    | nil => exact absurd hx hres
    | cons a l => rfl
  have hmain : autoSearchKnowledge ps fs pols q = productBlock (searchProducts ps q) := by
    simp only [autoSearchKnowledge]
    rw [hprod, if_pos rfl, hempty]
    rw [if_neg (by simp)]
  refine ⟨hmain, ?_⟩
  rw [hmain]
  unfold productBlock
  exact startsWithStr_append _ _

/-- C3 witness: "can i return the oak worktop" contains the product keywords
"oak"/"worktop" and the policy keyword "return", and the product search over
the canonical catalogue is non-empty; the router output is the product
block. -/
theorem claim3_witness :
    autoSearchKnowledge canonicalProducts canonicalFaqs canonicalPolicies
        "can i return the oak worktop"
      = productBlock (searchProducts canonicalProducts "can i return the oak worktop")
    ∧ startsWithStr
        (autoSearchKnowledge canonicalProducts canonicalFaqs canonicalPolicies
          "can i return the oak worktop") "PRODUCT SEARCH RESULTS:\n\n" = true :=
  claim3_thm canonicalProducts canonicalFaqs canonicalPolicies
    "can i return the oak worktop" (by decide) (by decide) (by decide)

/-- C1 counterexample: on an utterance where no branch and no fallback finds
anything (empty store, query "zzzzz"), the router of `src/agent.ts` does
signal "no relevant information" — but via the *non-empty* sentinel string
"No relevant information found.", which `runAgent` treats like any non-empty
context: the outbound user content wraps the sentinel in a RELEVANT KNOWLEDGE
section and appends the "Please answer based on this information." suffix,
instead of the claimed empty context section without the suffix. -/
theorem claim1_cex :
    autoSearchKnowledge [] [] [] "zzzzz" = "No relevant information found."
    ∧ includesStr (runAgentUserContent [] [] [] "zzzzz")
        "Please answer based on this information." = true
    ∧ runAgentUserContent [] [] [] "zzzzz" ≠ "CUSTOMER QUESTION: zzzzz\n\n" := by
  decide

/-- C1 (amended): whenever all three searches find nothing, the router of
`src/agent.ts` returns the sentinel string "No relevant information found.";
since the sentinel is a non-empty string and the instruction suffix is
conditional on the *string* being non-empty, the outbound user content then
contains a non-empty context section carrying the sentinel and the "Please
answer based on this information." suffix (the suffix is omitted only for an
empty context string, which this router never produces). -/
theorem claim1_thm (ps : List Product) (fs : List FAQ) (pols : List Policy)
    (msg : String)
    (hp : searchProducts ps msg = [])
    (hf : searchFAQs fs msg = [])
    (hpol : lookupPolicy pols msg = none) :
    autoSearchKnowledge ps fs pols msg = "No relevant information found."
    ∧ includesStr (runAgentUserContent ps fs pols msg)
        "Please answer based on this information." = true := by
  have hfall : autoFallback ps fs pols msg = "No relevant information found." := by
    simp only [autoFallback, fallbackContext]
    rw [hp, hf, hpol]
    decide
  have h3 : autoStage3 ps fs pols msg (lowerStr msg) = "No relevant information found." := by
    simp only [autoStage3]
    cases hk : hasKw (lowerStr msg) faqKeywords with
    | true =>
      rw [if_pos rfl, hf]
      simp only [List.isEmpty_nil, if_true]
      exact hfall
    | false =>
      rw [if_neg (by simp)]
      exact hfall
  have h2 : autoStage2 ps fs pols msg (lowerStr msg) = "No relevant information found." := by
    simp only [autoStage2]
    cases hk : hasKw (lowerStr msg) policyKeywords with
    | true =>
      rw [if_pos rfl, hpol]
      exact h3
    | false =>
      rw [if_neg (by simp)]
      exact h3
  have hauto : autoSearchKnowledge ps fs pols msg = "No relevant information found." := by
    simp only [autoSearchKnowledge]
    cases hk : hasKw (lowerStr msg) productKeywords with
    | true =>
      rw [if_pos rfl, hp]
      simp only [List.isEmpty_nil, if_true]
      exact h2
    | false =>
      rw [if_neg (by simp)]
      exact h2
  refine ⟨hauto, ?_⟩
  simp only [runAgentUserContent, baseUserContent]
  rw [hauto]
  rw [show ("No relevant information found." == "") = false from by decide]
  rw [if_neg (show ¬(false = true) from by simp)]
  apply includesStr_append_right
  apply includesStr_append_right
  apply includesStr_append_right
  decide

/-- C1 witness: the amended theorem applied at the empty store and the
utterance "zzzzz", whose hypotheses hold by computation. -/
theorem claim1_witness :
    autoSearchKnowledge [] [] [] "zzzzz!" = "No relevant information found."
    ∧ includesStr (runAgentUserContent [] [] [] "zzzzz!")
        "Please answer based on this information." = true :=
  claim1_thm [] [] [] "zzzzz!" (by decide) (by decide) (by decide)

/-- C7: the Topic Guard flags "write me a poem about your products" and does
not flag "do you have oak worktops in stock"; and for every utterance, when
the guard flags it, the annotation is prepended to the single outbound user
message (never sent as a separate message), and processing is never blocked:
flagged or not, the outbound array is exactly the history followed by one
user message. -/
theorem claim7_thm :
    isLikelyOffTopic "write me a poem about your products" = true
    ∧ isLikelyOffTopic "do you have oak worktops in stock" = false
    ∧ ∀ (ps : List Product) (fs : List FAQ) (pols : List Policy) (msg : String),
        (isLikelyOffTopic msg = true →
          runAgentUserContent ps fs pols msg
            = offTopicNote ++ ("\n\n" ++ baseUserContent ps fs pols msg))
        ∧ (isLikelyOffTopic msg = false →
          runAgentUserContent ps fs pols msg = baseUserContent ps fs pols msg)
        ∧ ∀ (hist : List Msg),
            buildApiMessages ps fs pols msg hist
              = hist ++ [⟨"user", runAgentUserContent ps fs pols msg⟩] := by
  refine ⟨by decide, by decide, ?_⟩
  intro ps fs pols msg
  refine ⟨?_, ?_, ?_⟩
  · intro hflag
    unfold runAgentUserContent
    rw [hflag, if_pos rfl, String.append_assoc]
  · intro hflag
    unfold runAgentUserContent
    rw [hflag, if_neg (by simp)]
    exact str_empty_append _
  · intro hist
    unfold buildApiMessages
    rw [show (fun m : Msg => (⟨m.role, m.content⟩ : Msg)) = fun m => m from rfl,
      List.map_id']

/-- C7 witness: the guard facts instantiated — the flagged poem request gets
the annotation prepended to the one outbound user message. -/
theorem claim7_witness :
    runAgentUserContent [] [] [] "write me a poem about your products"
      = offTopicNote ++ ("\n\n" ++ baseUserContent [] [] [] "write me a poem about your products")
    ∧ buildApiMessages [] [] [] "write me a poem about your products" [⟨"user", "hi"⟩]
      = [⟨"user", "hi"⟩,
         ⟨"user", runAgentUserContent [] [] [] "write me a poem about your products"⟩] := by
  have h := claim7_thm
  exact ⟨(h.2.2 [] [] [] _).1 (by decide),
    (h.2.2 [] [] [] "write me a poem about your products").2.2 [⟨"user", "hi"⟩]⟩

/-! ### Handler lemmas -/

theorem historyOf_storeSet_self (store : SessionStore) (id : String) (s : Session) :
    historyOf (storeSet store id s) id = s.messages := by
  unfold historyOf
  rw [storeGet_storeSet_self]

theorem getOrCreateSession_some (store : SessionStore) (id : String) (now : Int)
    (s : Session) (h : storeGet store id = some s) :
    getOrCreateSession store id now = (s, store) := by
  unfold getOrCreateSession
  rw [h]

theorem getOrCreateSession_none (store : SessionStore) (id : String) (now : Int)
    (h : storeGet store id = none) :
    getOrCreateSession store id now = (⟨[], now⟩, storeSet store id ⟨[], now⟩) := by
  unfold getOrCreateSession
  rw [h]

/-- The session handed to the turn is exactly the stored history ([] when the
id was absent). -/
theorem getOrCreate_messages (store : SessionStore) (id : String) (now : Int) :
    (getOrCreateSession store id now).1.messages = historyOf store id := by
  unfold getOrCreateSession historyOf
  cases hs : storeGet store id <;> rfl

theorem finishTurn_error (store1 : SessionStore) (id : String) (sess : Session)
    (now : Int) (sc ai : String) (o : ApiOutcome)
    (herr : (runAgentResult o).error ≠ none) :
    finishTurn store1 id sess now sc ai o
      = ⟨500, storeSet store1 id ⟨sess.messages, now⟩, true, some ai,
          some sess.messages, none⟩ := by
  simp only [finishTurn]
  rw [errTruthy_runAgentResult o herr]
  rw [if_pos rfl]

theorem finishTurn_success (store1 : SessionStore) (id : String) (sess : Session)
    (now : Int) (sc ai : String) (c : String) :
    finishTurn store1 id sess now sc ai (ApiOutcome.success c)
      = ⟨200, storeSet (storeSet store1 id ⟨sess.messages, now⟩) id
            ⟨sess.messages ++ [⟨"user", sc⟩, ⟨"assistant", c⟩], now⟩,
          true, some ai, some sess.messages, some c⟩ := by
  simp only [finishTurn]
  rw [show errTruthy (runAgentResult (ApiOutcome.success c)) = false from rfl]
  rw [if_neg (show ¬(false = true) from by simp)]
  rfl

theorem finishTurn_agentHistory (store1 : SessionStore) (id : String) (sess : Session)
    (now : Int) (sc ai : String) (o : ApiOutcome) :
    (finishTurn store1 id sess now sc ai o).agentHistory = some sess.messages := by
  simp only [finishTurn]
  by_cases h : errTruthy (runAgentResult o) = true
  · rw [if_pos h]
  · rw [if_neg h]

/-- The Bun handler reaches the common turn tail when the rate limiter passed,
both fields are present and the session is below the message cap. -/
theorem bunChatStep_eq (store : SessionStore) (id msg : String) (now : Int)
    (o : ApiOutcome) (hid : id ≠ "") (hmsg : msg ≠ "") (sess : Session)
    (store1 : SessionStore) (hg : getOrCreateSession store id now = (sess, store1))
    (hcount : userCountOf sess.messages < MAX_MESSAGES_PER_SESSION) :
    bunChatStep store false id msg now o
      = finishTurn store1 id sess now (strTake msg MAX_MESSAGE_LENGTH)
          (strTake msg MAX_MESSAGE_LENGTH) o := by
  simp only [bunChatStep]
  rw [if_neg (show ¬(false = true) from by simp)]
  rw [beq_eq_false_iff_ne.mpr hid, beq_eq_false_iff_ne.mpr hmsg]
  rw [if_neg (show ¬((false || false) = true) from by simp)]
  rw [hg]
  dsimp only
  rw [if_neg (Nat.not_le.mpr hcount)]

theorem expressChatStep_eq (store : SessionStore) (id msg : String) (now : Int)
    (o : ApiOutcome) (hid : id ≠ "") (hmsg : msg ≠ "") (sess : Session)
    (store1 : SessionStore) (hg : getOrCreateSession store id now = (sess, store1)) :
    expressChatStep store true id msg now o
      = finishTurn store1 id sess now msg (strTake msg 500) o := by
  simp only [expressChatStep]
  rw [beq_eq_false_iff_ne.mpr hid, beq_eq_false_iff_ne.mpr hmsg]
  rw [if_neg (show ¬((false || false) = true) from by simp)]
  rw [if_neg (show ¬((!true) = true) from by simp)]
  rw [hg]

theorem serverlessChatStep_eq (store : SessionStore) (id msg : String) (now : Int)
    (o : ApiOutcome) (hid : id ≠ "") (hmsg : msg ≠ "") (sess : Session)
    (store1 : SessionStore) (hg : getOrCreateSession store id now = (sess, store1)) :
    serverlessChatStep store true id msg now o
      = finishTurn store1 id sess now msg (strTake msg 500) o := by
  simp only [serverlessChatStep]
  rw [if_neg (show ¬((!true) = true) from by simp)]
  rw [beq_eq_false_iff_ne.mpr hid, beq_eq_false_iff_ne.mpr hmsg]
  rw [if_neg (show ¬((false || false) = true) from by simp)]
  rw [hg]

/-- C9: in every entry point (Bun server, Express, serverless), when the
agent turn produces a failure result (the error field is set), the handler
responds 500 and the session's stored message sequence is unchanged: neither
the user message nor an assistant message is appended.  (The Bun handler is
taken past its rate-limit and message-cap gates, which precede the agent
call.) -/
theorem claim9_thm (store : SessionStore) (id msg : String) (now : Int)
    (o : ApiOutcome) (hid : id ≠ "") (hmsg : msg ≠ "")
    (hcount : userCountOf (historyOf store id) < MAX_MESSAGES_PER_SESSION)
    (herr : (runAgentResult o).error ≠ none) :
    ((bunChatStep store false id msg now o).status = 500
      ∧ historyOf (bunChatStep store false id msg now o).store id = historyOf store id
      ∧ (bunChatStep store false id msg now o).agentCalled = true)
    ∧ ((expressChatStep store true id msg now o).status = 500
      ∧ historyOf (expressChatStep store true id msg now o).store id = historyOf store id
      ∧ (expressChatStep store true id msg now o).agentCalled = true)
    ∧ ((serverlessChatStep store true id msg now o).status = 500
      ∧ historyOf (serverlessChatStep store true id msg now o).store id = historyOf store id
      ∧ (serverlessChatStep store true id msg now o).agentCalled = true) := by
  obtain ⟨sess, store1, hg⟩ :
      ∃ sess store1, getOrCreateSession store id now = (sess, store1) := ⟨_, _, rfl⟩
  have hmsgs : sess.messages = historyOf store id := by
    have h := getOrCreate_messages store id now
    rw [hg] at h
    exact h
  have hc : userCountOf sess.messages < MAX_MESSAGES_PER_SESSION := by
    rw [hmsgs]; exact hcount
  refine ⟨?_, ?_, ?_⟩
  · rw [bunChatStep_eq store id msg now o hid hmsg sess store1 hg hc,
      finishTurn_error _ _ _ _ _ _ o herr]
    exact ⟨rfl, by rw [historyOf_storeSet_self]; exact hmsgs, rfl⟩
  · rw [expressChatStep_eq store id msg now o hid hmsg sess store1 hg,
      finishTurn_error _ _ _ _ _ _ o herr]
    exact ⟨rfl, by rw [historyOf_storeSet_self]; exact hmsgs, rfl⟩
  · rw [serverlessChatStep_eq store id msg now o hid hmsg sess store1 hg,
      finishTurn_error _ _ _ _ _ _ o herr]
    exact ⟨rfl, by rw [historyOf_storeSet_self]; exact hmsgs, rfl⟩

/-- C9 witness: a failed remote call (HTTP 503) on a fresh session "s1" gives
a 500 in all three handlers and leaves the history empty. -/
theorem claim9_witness :
    ((bunChatStep [] false "s1" "hello" 0 (ApiOutcome.httpError 503 "overloaded")).status = 500
      ∧ historyOf (bunChatStep [] false "s1" "hello" 0
          (ApiOutcome.httpError 503 "overloaded")).store "s1" = historyOf [] "s1"
      ∧ (bunChatStep [] false "s1" "hello" 0 (ApiOutcome.httpError 503 "overloaded")).agentCalled = true)
    ∧ ((expressChatStep [] true "s1" "hello" 0 (ApiOutcome.httpError 503 "overloaded")).status = 500
      ∧ historyOf (expressChatStep [] true "s1" "hello" 0
          (ApiOutcome.httpError 503 "overloaded")).store "s1" = historyOf [] "s1"
      ∧ (expressChatStep [] true "s1" "hello" 0 (ApiOutcome.httpError 503 "overloaded")).agentCalled = true)
    ∧ ((serverlessChatStep [] true "s1" "hello" 0 (ApiOutcome.httpError 503 "overloaded")).status = 500
      ∧ historyOf (serverlessChatStep [] true "s1" "hello" 0
          (ApiOutcome.httpError 503 "overloaded")).store "s1" = historyOf [] "s1"
      ∧ (serverlessChatStep [] true "s1" "hello" 0 (ApiOutcome.httpError 503 "overloaded")).agentCalled = true) :=
  claim9_thm [] "s1" "hello" 0 (ApiOutcome.httpError 503 "overloaded")
    (by decide) (by decide) (by decide) (by decide)

/-- C10: on a successful turn the Express and serverless handlers pass only
the first 500 characters of the raw message to the agent yet append the full
raw message to the session history, while the Bun handler stores the
truncated message; for raw messages over 500 characters the stored entry
exceeds `MAX_MESSAGE_LENGTH` and differs from what the agent was shown. -/
theorem claim10_thm (store : SessionStore) (id raw : String) (now : Int)
    (c : String) (hid : id ≠ "") (hraw : raw ≠ "") :
    ((expressChatStep store true id raw now (ApiOutcome.success c)).agentInput
        = some (strTake raw 500)
      ∧ historyOf (expressChatStep store true id raw now (ApiOutcome.success c)).store id
        = historyOf store id ++ [⟨"user", raw⟩, ⟨"assistant", c⟩])
    ∧ ((serverlessChatStep store true id raw now (ApiOutcome.success c)).agentInput
        = some (strTake raw 500)
      ∧ historyOf (serverlessChatStep store true id raw now (ApiOutcome.success c)).store id
        = historyOf store id ++ [⟨"user", raw⟩, ⟨"assistant", c⟩])
    ∧ (userCountOf (historyOf store id) < MAX_MESSAGES_PER_SESSION →
        (bunChatStep store false id raw now (ApiOutcome.success c)).agentInput
          = some (strTake raw MAX_MESSAGE_LENGTH)
        ∧ historyOf (bunChatStep store false id raw now (ApiOutcome.success c)).store id
          = historyOf store id ++ [⟨"user", strTake raw MAX_MESSAGE_LENGTH⟩, ⟨"assistant", c⟩])
    ∧ (500 < raw.length → MAX_MESSAGE_LENGTH < raw.length ∧ raw ≠ strTake raw 500) := by
  obtain ⟨sess, store1, hg⟩ :
      ∃ sess store1, getOrCreateSession store id now = (sess, store1) := ⟨_, _, rfl⟩
  have hmsgs : sess.messages = historyOf store id := by
    have h := getOrCreate_messages store id now
    rw [hg] at h
    exact h
  refine ⟨?_, ?_, ?_, ?_⟩
  · rw [expressChatStep_eq store id raw now _ hid hraw sess store1 hg,
      finishTurn_success]
    exact ⟨rfl, by rw [historyOf_storeSet_self, hmsgs]⟩
  · rw [serverlessChatStep_eq store id raw now _ hid hraw sess store1 hg,
      finishTurn_success]
    exact ⟨rfl, by rw [historyOf_storeSet_self, hmsgs]⟩
  · intro hcount
    have hc : userCountOf sess.messages < MAX_MESSAGES_PER_SESSION := by
      rw [hmsgs]; exact hcount
    rw [bunChatStep_eq store id raw now _ hid hraw sess store1 hg hc,
      finishTurn_success]
    exact ⟨rfl, by rw [historyOf_storeSet_self, hmsgs]⟩
  · intro hlen
    refine ⟨by simpa [MAX_MESSAGE_LENGTH] using hlen, ?_⟩
    intro he
    have hlen2 : raw.length = (strTake raw 500).length := congrArg String.length he
    have htake : (strTake raw 500).length = min 500 raw.length := by
      show (raw.data.take 500).length = min 500 raw.data.length
      exact List.length_take _ _
    rw [htake] at hlen2
    omega

/-- The 501-character raw message used to witness C10. -/
def demoRaw501 : String := ⟨List.replicate 501 'a'⟩

/-- C10 witness: a 501-character message on a fresh session — the Express
handler passes the truncated message to the agent, stores the full one, and
the stored entry differs from what the agent saw. -/
theorem claim10_witness :
    (expressChatStep [] true "s1" demoRaw501 0 (ApiOutcome.success "ok")).agentInput
      = some (strTake demoRaw501 500)
    ∧ historyOf (expressChatStep [] true "s1" demoRaw501 0
        (ApiOutcome.success "ok")).store "s1"
      = historyOf [] "s1" ++ [⟨"user", demoRaw501⟩, ⟨"assistant", "ok"⟩]
    ∧ MAX_MESSAGE_LENGTH < demoRaw501.length
    ∧ demoRaw501 ≠ strTake demoRaw501 500 := by
  have hlen501 : demoRaw501.length = 501 := by
    show (List.replicate 501 'a').length = 501
    exact List.length_replicate _ _
  have hne : demoRaw501 ≠ "" := by
    intro h
    rw [h] at hlen501
    exact absurd hlen501 (by decide)
  have h := claim10_thm [] "s1" demoRaw501 0 "ok" (by decide) hne
  have h4 := h.2.2.2 (by rw [hlen501]; omega)
  exact ⟨h.1.1, h.1.2, h4.1, h4.2⟩

/-- C4 (amended): only the Bun server handler enforces
`MAX_MESSAGES_PER_SESSION`: when a session's stored user-turn count has
reached the maximum, any further Bun request for that sessionId is answered
with a 4xx status (429 when rate-limited, 400 otherwise), the remote provider
is never contacted, and the stored message sequence is unchanged.  The
Express and serverless handlers perform no such check (see the
counterexample). -/
theorem claim4_thm (store : SessionStore) (rl : Bool) (id msg : String)
    (now : Int) (o : ApiOutcome)
    (hfull : MAX_MESSAGES_PER_SESSION ≤ userCountOf (historyOf store id)) :
    (400 ≤ (bunChatStep store rl id msg now o).status
      ∧ (bunChatStep store rl id msg now o).status < 500)
    ∧ (bunChatStep store rl id msg now o).agentCalled = false
    ∧ historyOf (bunChatStep store rl id msg now o).store id = historyOf store id := by
  cases rl with
  | true =>
    simp only [bunChatStep]
    rw [if_pos trivial]
    exact ⟨⟨show (400 : Nat) ≤ 429 by decide, show (429 : Nat) < 500 by decide⟩, rfl, rfl⟩
  | false =>
    simp only [bunChatStep]
    rw [if_neg (show ¬(false = true) from by simp)]
    by_cases hfields : (id == "" || msg == "") = true
    · rw [if_pos hfields]
      exact ⟨⟨show (400 : Nat) ≤ 400 by decide, show (400 : Nat) < 500 by decide⟩, rfl, rfl⟩
    · rw [if_neg hfields]
      cases hs : storeGet store id with
      | none =>
        exfalso
        have hh : historyOf store id = [] := by unfold historyOf; rw [hs]
        rw [hh] at hfull
        simp [userCountOf, MAX_MESSAGES_PER_SESSION] at hfull
      | some s =>
        rw [getOrCreateSession_some store id now s hs]
        dsimp only
        have hmsgs : s.messages = historyOf store id := by unfold historyOf; rw [hs]
        rw [if_pos (show MAX_MESSAGES_PER_SESSION ≤ userCountOf s.messages from by
          rw [hmsgs]; exact hfull)]
        exact ⟨⟨show (400 : Nat) ≤ 400 by decide, show (400 : Nat) < 500 by decide⟩, rfl, rfl⟩

/-- A session holding the configured maximum of 50 user turns. -/
def fullSession : Session := ⟨List.replicate 50 ⟨"user", "x"⟩, 0⟩

/-- C4 witness: a Bun request on the full session is rejected in the 4xx
range without calling the agent, leaving the history unchanged. -/
theorem claim4_witness :
    (400 ≤ (bunChatStep [("s1", fullSession)] false "s1" "hello" 0
        (ApiOutcome.success "ok")).status
      ∧ (bunChatStep [("s1", fullSession)] false "s1" "hello" 0
        (ApiOutcome.success "ok")).status < 500)
    ∧ (bunChatStep [("s1", fullSession)] false "s1" "hello" 0
        (ApiOutcome.success "ok")).agentCalled = false
    ∧ historyOf (bunChatStep [("s1", fullSession)] false "s1" "hello" 0
        (ApiOutcome.success "ok")).store "s1" = historyOf [("s1", fullSession)] "s1" :=
  claim4_thm [("s1", fullSession)] false "s1" "hello" 0 (ApiOutcome.success "ok") (by decide)

/-- C4 counterexample: the claim cites the Express handler too, but that
handler has no message-cap check: on a session already holding 50 user turns
it calls the agent, answers 200 and appends a further user/assistant pair,
growing the stored sequence past the configured bound. -/
theorem claim4_cex :
    (expressChatStep [("s1", fullSession)] true "s1" "hello" 0
        (ApiOutcome.success "ok")).status = 200
    ∧ (expressChatStep [("s1", fullSession)] true "s1" "hello" 0
        (ApiOutcome.success "ok")).agentCalled = true
    ∧ userCountOf (historyOf (expressChatStep [("s1", fullSession)] true "s1" "hello" 0
        (ApiOutcome.success "ok")).store "s1") = 51 := by
  decide

/-- C8: every session of the given id whose idle time strictly exceeds
`SESSION_TIMEOUT_MS` is absent from the store after the cleanup sweep runs,
and a subsequent Bun chat request with that sessionId is treated as a
brand-new session: the agent receives an empty history. -/
theorem claim8_thm (store : SessionStore) (id : String) (now : Int)
    (hall : ∀ s : Session, (id, s) ∈ store → SESSION_TIMEOUT_MS < now - s.lastActive) :
    storeGet (cleanupSessions store now) id = none
    ∧ ∀ (msg : String) (now2 : Int) (o : ApiOutcome), id ≠ "" → msg ≠ "" →
        (bunChatStep (cleanupSessions store now) false id msg now2 o).agentHistory
          = some [] := by
  have hnone : storeGet (cleanupSessions store now) id = none := by
    have hfind : List.find? (fun kv => kv.1 == id) (cleanupSessions store now) = none := by
      refine List.find?_eq_none.mpr ?_
      intro kv hkv hbeq
      unfold cleanupSessions at hkv
      rw [List.mem_filter] at hkv
      have hid2 : kv.1 = id := by simpa using hbeq
      have hmem : (id, kv.2) ∈ store := by
        rw [← hid2]
        exact hkv.1
      have hlt : kv.2.lastActive < now - SESSION_TIMEOUT_MS := by
        have := hall kv.2 hmem
        omega
      have hkeep := hkv.2
      simp only at hkeep
      rw [decide_eq_true hlt] at hkeep
      exact absurd hkeep (by simp)
    unfold storeGet
    rw [hfind]
  refine ⟨hnone, ?_⟩
  intro msg now2 o hid hmsg
  rw [bunChatStep_eq (cleanupSessions store now) id msg now2 o hid hmsg
      ⟨[], now2⟩ (storeSet (cleanupSessions store now) id ⟨[], now2⟩)
      (getOrCreateSession_none _ id now2 hnone)
      (show userCountOf ([] : List Msg) < MAX_MESSAGES_PER_SESSION by decide),
    finishTurn_agentHistory]

/-- The stale demo session used to witness C8. -/
def staleSession : Session := ⟨[⟨"user", "hi"⟩, ⟨"assistant", "hello"⟩], 0⟩

/-- C8 witness: a session last active at time 0 swept at time
`SESSION_TIMEOUT_MS + 1` is gone, and the next request for its id reaches the
agent with an empty history. -/
theorem claim8_witness :
    storeGet (cleanupSessions [("s1", staleSession)] (SESSION_TIMEOUT_MS + 1)) "s1" = none
    ∧ (bunChatStep (cleanupSessions [("s1", staleSession)] (SESSION_TIMEOUT_MS + 1))
        false "s1" "hello again" (SESSION_TIMEOUT_MS + 2)
        (ApiOutcome.success "ok")).agentHistory = some [] := by
  have h := claim8_thm [("s1", staleSession)] "s1" (SESSION_TIMEOUT_MS + 1) (by
    intro s hs
    injection List.mem_singleton.mp hs with h1 h2
    subst h2
    decide)
  exact ⟨h.1, h.2 "hello again" (SESSION_TIMEOUT_MS + 2) (ApiOutcome.success "ok")
    (by decide) (by decide)⟩
